import Mathlib

/-!
# Verification of the IPMI message codec and confidentiality-layer construction

Shallow embedding of the `bmc` repository's IPMI message layer:

* `checksum`, `Message.DecodeFromBytes`, `Message.SerializeTo` and their
  helpers (`pkg/ipmi` message codec);
* `Operation` / `Message.NextLayerType` dispatch over the static
  operation-to-layer table;
* `algorithmCipher` (confidentiality-layer construction).

Bytes are modelled as `Nat` with explicit `% 256` wherever Go performs a
`uint8` conversion or `uint8` arithmetic overflow; byte slices are
`List Nat`.  Go slice expressions `data[a:b]` become `(data.drop a).take
(b - a)`; single-byte reads `data[i]` become `data.getD i 0` (every such
read in the decoder is guarded by the ≥ 7 length check so the default is
never hit).  The one slice expression whose bounds are *not* implied by the
length check (`data[start : len(data)-1]` in `decodeDataHeader`) is given
an explicit bounds test producing an `Outcome.fault`, mirroring the Go
runtime panic for a slice with `low > high`.

Declarations whose source file is not part of the repository snapshot
(network-function constants, `IsRequest`, `CompletionCodeNormal`, layer
type identifiers, confidentiality algorithm identifiers and the AES cipher
constructor) are modelled from the specification and carry a
`Modelled from the spec:` note.
-/

/-- Go `uint8(n)` conversion: truncate a value to one byte. -/
def u8 (n : Nat) : Nat := n % 256

/-- `checksum` (message.go): the two's-complement checksum.  Go sums the
bytes into a `uint8` accumulator (`c += b`, wrapping mod 256) and returns
`-c`, which for a `uint8` is `(256 - c) % 256`. -/
def checksum (data : List Nat) : Nat :=
  (256 - data.foldl (fun c b => (c + b) % 256) 0) % 256

/-- Modelled from the spec: network function codes are 6-bit; "even values
denote requests, the paired odd value denotes the matching response".
The numeric values are the IPMI-standard ones used by the source's
`NetworkFunction` constants (declared outside the snapshot). -/
def NetworkFunctionChassisReq : Nat := 0x00

/-- Modelled from the spec (see `NetworkFunctionChassisReq`). -/
def NetworkFunctionChassisRsp : Nat := 0x01

/-- Modelled from the spec (see `NetworkFunctionChassisReq`). -/
def NetworkFunctionSensorReq : Nat := 0x04

/-- Modelled from the spec (see `NetworkFunctionChassisReq`). -/
def NetworkFunctionSensorRsp : Nat := 0x05

/-- Modelled from the spec (see `NetworkFunctionChassisReq`). -/
def NetworkFunctionAppReq : Nat := 0x06

/-- Modelled from the spec (see `NetworkFunctionChassisReq`). -/
def NetworkFunctionAppRsp : Nat := 0x07

/-- Modelled from the spec (see `NetworkFunctionChassisReq`). -/
def NetworkFunctionStorageReq : Nat := 0x0a

/-- Modelled from the spec (see `NetworkFunctionChassisReq`). -/
def NetworkFunctionStorageRsp : Nat := 0x0b

/-- Modelled from the spec (see `NetworkFunctionChassisReq`). -/
def NetworkFunctionGroupReq : Nat := 0x2c

/-- Modelled from the spec (see `NetworkFunctionChassisReq`). -/
def NetworkFunctionGroupRsp : Nat := 0x2d

/-- Modelled from the spec (see `NetworkFunctionChassisReq`). -/
def NetworkFunctionOEMReq : Nat := 0x2e

/-- Modelled from the spec (see `NetworkFunctionChassisReq`). -/
def NetworkFunctionOEMRsp : Nat := 0x2f

/-- Modelled from the spec: `NetworkFunction.IsRequest` — "true iff the
function code is even". -/
def IsRequest (f : Nat) : Bool := f % 2 == 0

/-- Modelled from the spec: the "normal/success" completion code sentinel is
zero ("This will be 0 if the message is a request"). -/
def CompletionCodeNormal : Nat := 0

/-- Modelled from the spec: the gopacket layer-type identifiers registered
for the structured response layers, plus the generic opaque-payload
sentinel (`gopacket.LayerTypePayload`).  Only their identities matter to
the dispatch logic, so they are an enumeration. -/
inductive LayerType where
  | Payload
  | GetDeviceIDRsp
  | GetChassisStatusRsp
  | GetSystemGUIDRsp
  | GetChannelAuthenticationCapabilitiesRsp
  | GetSDRRepositoryInfoRsp
  | GetSDRRsp
  | GetSensorReadingRsp
  | GetSessionInfoRsp
  deriving DecidableEq

/-- `Operation` (operation.go): the composite key `{NetworkFunction,
BodyCode, Enterprise, CommandNumber}` identifying a command class. -/
structure Operation where
  Function : Nat
  Body : Nat
  Enterprise : Nat
  Command : Nat
  deriving DecidableEq

/-- `OperationGetChassisStatusRsp` (operation.go); unset Go fields default
to zero. -/
def OperationGetChassisStatusRsp : Operation :=
  { Function := NetworkFunctionChassisRsp, Body := 0, Enterprise := 0, Command := 0x01 }

/-- `OperationGetDeviceIDRsp` (operation.go). -/
def OperationGetDeviceIDRsp : Operation :=
  { Function := NetworkFunctionAppRsp, Body := 0, Enterprise := 0, Command := 0x01 }

/-- `OperationGetSystemGUIDRsp` (operation.go). -/
def OperationGetSystemGUIDRsp : Operation :=
  { Function := NetworkFunctionAppRsp, Body := 0, Enterprise := 0, Command := 0x37 }

/-- `OperationGetChannelAuthenticationCapabilitiesRsp` (operation.go). -/
def OperationGetChannelAuthenticationCapabilitiesRsp : Operation :=
  { Function := NetworkFunctionAppRsp, Body := 0, Enterprise := 0, Command := 0x38 }

/-- `OperationGetSDRRepositoryInfoRsp` (operation.go). -/
def OperationGetSDRRepositoryInfoRsp : Operation :=
  { Function := NetworkFunctionStorageRsp, Body := 0, Enterprise := 0, Command := 0x20 }

/-- `OperationGetSDRRsp` (operation.go). -/
def OperationGetSDRRsp : Operation :=
  { Function := NetworkFunctionStorageRsp, Body := 0, Enterprise := 0, Command := 0x23 }

/-- `OperationGetSensorReadingRsp` (operation.go). -/
def OperationGetSensorReadingRsp : Operation :=
  { Function := NetworkFunctionSensorRsp, Body := 0, Enterprise := 0, Command := 0x2d }

/-- `OperationGetSessionInfoRsp` (operation.go). -/
def OperationGetSessionInfoRsp : Operation :=
  { Function := NetworkFunctionAppRsp, Body := 0, Enterprise := 0, Command := 0x3d }

/-- `operationLayerTypes` (operation.go): the static, read-only
operation-to-layer table, as an association list. -/
def operationLayerTypes : List (Operation × LayerType) :=
  [(OperationGetDeviceIDRsp, LayerType.GetDeviceIDRsp),
   (OperationGetChassisStatusRsp, LayerType.GetChassisStatusRsp),
   (OperationGetSystemGUIDRsp, LayerType.GetSystemGUIDRsp),
   (OperationGetChannelAuthenticationCapabilitiesRsp,
     LayerType.GetChannelAuthenticationCapabilitiesRsp),
   (OperationGetSDRRepositoryInfoRsp, LayerType.GetSDRRepositoryInfoRsp),
   (OperationGetSDRRsp, LayerType.GetSDRRsp),
   (OperationGetSensorReadingRsp, LayerType.GetSensorReadingRsp),
   (OperationGetSessionInfoRsp, LayerType.GetSessionInfoRsp)]

/-- `Operation.NextLayerType` (operation.go): table lookup with the opaque
payload sentinel as fallback. -/
def Operation.NextLayerType (o : Operation) : LayerType :=
  match operationLayerTypes.find? (fun p => decide (p.1 = o)) with
  | some p => p.2
  | none => LayerType.Payload

/-- `Message` (message.go), with the embedded `layers.BaseLayer`
(`Contents`, `Payload`) and embedded `Operation` (`Function`, `Body`,
`Enterprise`, `Command`) fields flattened in. -/
structure Message where
  Contents : List Nat
  Payload : List Nat
  Function : Nat
  Body : Nat
  Enterprise : Nat
  Command : Nat
  RemoteAddress : Nat
  RemoteLUN : Nat
  Checksum1 : Nat
  LocalAddress : Nat
  LocalLUN : Nat
  Sequence : Nat
  CompletionCode : Nat
  Checksum2 : Nat
  deriving DecidableEq

/-- The embedded `Operation` value of a `Message` (Go field promotion). -/
def Message.Operation (m : Message) : Operation :=
  { Function := m.Function, Body := m.Body, Enterprise := m.Enterprise,
    Command := m.Command }

/-- `Message.NextLayerType` (message.go): a non-normal completion code
always yields the opaque payload sentinel; otherwise defer to the embedded
operation's lookup. -/
def Message.NextLayerType (m : Message) : LayerType :=
  if m.CompletionCode ≠ CompletionCodeNormal then LayerType.Payload
  else (Message.Operation m).NextLayerType

/-- The decoder's error values (the `fmt.Errorf` results in message.go),
carrying the data the messages report. -/
inductive DecodeError where
  | tooShort (len : Nat)
  | badChecksum1 (got want : Nat)
  | badChecksum2 (got want : Nat)
  | shortBodyCode
  | shortOEM
  deriving DecidableEq

/-- How a decode call finishes: normal return of `nil`, return of an error
value, or a Go runtime panic from a slice expression with `low > high`
(recorded with the offending bounds). -/
inductive Outcome where
  | ok
  | err (e : DecodeError)
  | fault (low high : Nat)
  deriving DecidableEq

/-- Result of `Message.DecodeFromBytes`: the receiver after the call (Go
mutates `m` in place), whether `df.SetTruncated()` was called, and how the
call finished. -/
structure DecodeResult where
  msg : Message
  truncated : Bool
  outcome : Outcome
  deriving DecidableEq

/-- Result of `Message.decodeSpecialNetFns`: the receiver after the call,
the `int` consumed-byte count, whether `df.SetTruncated()` was called, and
the returned error if any. -/
structure SpecialResult where
  msg : Message
  consumed : Nat
  truncated : Bool
  err : Option DecodeError
  deriving DecidableEq

/-- `Message.decodeSpecialNetFns` (message.go): reset `Body` and
`Enterprise`, then consume the body code (Group) or the little-endian
24-bit enterprise number (OEM) from the data region, signalling truncation
when the region is too short. -/
def Message.decodeSpecialNetFns (m : Message) (data : List Nat) : SpecialResult :=
  let m0 := { m with Body := 0, Enterprise := 0 }
  if m0.Function = NetworkFunctionGroupReq ∨ m0.Function = NetworkFunctionGroupRsp then
    if data.length < 1 then
      { msg := m0, consumed := 0, truncated := true, err := some DecodeError.shortBodyCode }
    else
      { msg := { m0 with Body := data.getD 0 0 }, consumed := 1, truncated := false, err := none }
  else if m0.Function = NetworkFunctionOEMReq ∨ m0.Function = NetworkFunctionOEMRsp then
    if data.length < 3 then
      { msg := m0, consumed := 0, truncated := true, err := some DecodeError.shortOEM }
    else
      { msg := { m0 with
          Enterprise := data.getD 0 0 ||| data.getD 1 0 <<< 8 ||| data.getD 2 0 <<< 16 },
        consumed := 3, truncated := false, err := none }
  else
    { msg := m0, consumed := 0, truncated := false, err := none }

/-- `Message.decodeDataHeader` (message.go).  The Go code evaluates
`data[start : len(data)-1]` before calling `decodeSpecialNetFns`; when
`start > len(data) - 1` that slice expression panics at runtime, which the
embedding records as an `Outcome.fault` with the slice bounds. -/
def Message.decodeDataHeader (m : Message) (data : List Nat) (start : Nat) : DecodeResult :=
  if start ≤ data.length - 1 then
    let r := m.decodeSpecialNetFns ((data.drop start).take (data.length - 1 - start))
    match r.err with
    | some e => { msg := r.msg, truncated := r.truncated, outcome := Outcome.err e }
    | none =>
      { msg := { r.msg with
          Contents := data.take (start + r.consumed),
          Payload := (data.drop (start + r.consumed)).take
            (data.length - 1 - (start + r.consumed)) },
        truncated := r.truncated, outcome := Outcome.ok }
  else
    { msg := m, truncated := false, outcome := Outcome.fault start (data.length - 1) }

/-- `Message.decodeRequest` (message.go): requests carry no completion
code, so it is fixed to zero; data starts at offset 6. -/
def Message.decodeRequest (m : Message) (data : List Nat) : DecodeResult :=
  Message.decodeDataHeader { m with CompletionCode := 0 } data 6

/-- `Message.decodeResponse` (message.go): the completion code is byte 6
(in range thanks to the ≥ 7 length check); data starts at offset 7. -/
def Message.decodeResponse (m : Message) (data : List Nat) : DecodeResult :=
  Message.decodeDataHeader { m with CompletionCode := data.getD 6 0 } data 7

/-- `Message.DecodeFromBytes` (message.go).  Field assignments happen in
source order, so fields parsed before a failing checksum test remain
assigned in the returned receiver, exactly as in Go.  All single-byte
reads are guarded by the ≥ 7 length test (indices 0–6 and
`len(data)-1`). -/
def Message.DecodeFromBytes (m : Message) (data : List Nat) : DecodeResult :=
  if data.length < 7 then
    { msg := m, truncated := true, outcome := Outcome.err (DecodeError.tooShort data.length) }
  else
    let m1 := { m with
      RemoteAddress := data.getD 0 0,
      Function := data.getD 1 0 >>> 2,
      RemoteLUN := data.getD 1 0 &&& 3,
      Checksum1 := data.getD 2 0 }
    if m1.Checksum1 ≠ checksum (data.take 2) then
      { msg := m1, truncated := false,
        outcome := Outcome.err (DecodeError.badChecksum1 m1.Checksum1 (checksum (data.take 2))) }
    else
      let m2 := { m1 with
        LocalAddress := data.getD 3 0,
        Sequence := data.getD 4 0 >>> 2,
        LocalLUN := data.getD 4 0 &&& 3,
        Command := data.getD 5 0,
        Checksum2 := data.getD (data.length - 1) 0 }
      if m2.Checksum2 ≠ checksum ((data.drop 3).take (data.length - 1 - 3)) then
        { msg := m2, truncated := false,
          outcome := Outcome.err (DecodeError.badChecksum2 m2.Checksum2
            (checksum ((data.drop 3).take (data.length - 1 - 3)))) }
      else
        if IsRequest m2.Function then m2.decodeRequest data else m2.decodeResponse data

/-- `Message.serializeLength` (message.go): 6 base bytes, plus the
completion code for responses, plus the Group/OEM extra bytes. -/
def Message.serializeLength (m : Message) : Nat :=
  6 + (if IsRequest m.Function then 0 else 1) +
    (if m.Function = NetworkFunctionGroupReq ∨ m.Function = NetworkFunctionGroupRsp then 1
     else if m.Function = NetworkFunctionOEMReq ∨ m.Function = NetworkFunctionOEMRsp then 3
     else 0)

/-- The header bytes written by `Message.SerializeTo` into the prepended
region, given the byte `c1` that ends up at `header[2]`:
bytes 0–5, then the completion code for responses, then the Group body
code or the OEM enterprise number (little-endian, `uint8` truncations of
the `uint32` value).  `uint8(m.Function)<<2 | uint8(m.RemoteLUN)` is
`uint8` arithmetic, hence the inner `u8` around the shift. -/
def Message.serializeHeader (m : Message) (c1 : Nat) : List Nat :=
  [u8 m.RemoteAddress,
   u8 (u8 m.Function <<< 2) ||| u8 m.RemoteLUN,
   c1,
   u8 m.LocalAddress,
   u8 (u8 m.Sequence <<< 2) ||| u8 m.LocalLUN,
   u8 m.Command]
  ++ (if IsRequest m.Function then [] else [u8 m.CompletionCode])
  ++ (if m.Function = NetworkFunctionGroupReq ∨ m.Function = NetworkFunctionGroupRsp then
        [u8 m.Body]
      else if m.Function = NetworkFunctionOEMReq ∨ m.Function = NetworkFunctionOEMRsp then
        [u8 (m.Enterprise % 2 ^ 32),
         u8 ((m.Enterprise % 2 ^ 32) >>> 8),
         u8 ((m.Enterprise % 2 ^ 32) >>> 16)]
      else [])

/-- The byte written at `header[2]` by `Message.SerializeTo`: with
`ComputeChecksums` set, `checksum(header[0:2])` over the two just-written
bytes; otherwise the caller's `Checksum1`. -/
def Message.serializeChecksum1 (m : Message) (computeChecksums : Bool) : Nat :=
  if computeChecksums
  then checksum [u8 m.RemoteAddress, u8 (u8 m.Function <<< 2) ||| u8 m.RemoteLUN]
  else u8 m.Checksum1

/-- The byte appended as the trailer by `Message.SerializeTo`: with
`ComputeChecksums` set, `checksum(b.Bytes()[3:])` over the prepended
header and the already-serialized following layers; otherwise the caller's
`Checksum2`. -/
def Message.serializeChecksum2 (m : Message) (buf : List Nat) (computeChecksums : Bool) :
    Nat :=
  if computeChecksums
  then checksum ((m.serializeHeader (m.serializeChecksum1 computeChecksums) ++ buf).drop 3)
  else u8 m.Checksum2

/-- `Message.SerializeTo` (message.go).  The serialize buffer already
holds the following layers' bytes (`buf`); the header is prepended and the
trailing checksum appended.  With `ComputeChecksums` set, `m.Checksum1` is
recomputed from `header[0:2]` and `m.Checksum2` from `b.Bytes()[3:]`
(everything from `LocalAddress` through the payload), and both field
assignments survive in the returned message; otherwise the caller's field
values are written to the wire unchanged and no field of `m` is touched. -/
def Message.SerializeTo (m : Message) (buf : List Nat) (computeChecksums : Bool) :
    Message × List Nat :=
  (if computeChecksums
     then { m with Checksum1 := m.serializeChecksum1 computeChecksums,
                   Checksum2 := m.serializeChecksum2 buf computeChecksums }
     else m,
   (m.serializeHeader (m.serializeChecksum1 computeChecksums) ++ buf)
     ++ [m.serializeChecksum2 buf computeChecksums])

/-- Modelled from the spec: the confidentiality algorithm identifier for
"no encryption". -/
def ConfidentialityAlgorithmNone : Nat := 0

/-- Modelled from the spec: the confidentiality algorithm identifier for
AES-CBC-128. -/
def ConfidentialityAlgorithmAESCBC128 : Nat := 1

/-- Modelled from the spec: `copy(key[:], g.K(2))` into a zero-initialised
16-byte array — the first `min 16 (src.length)` bytes of `src`, zero
padded to 16 bytes. -/
def copyKey16 (src : List Nat) : List Nat :=
  src.take 16 ++ List.replicate (16 - src.length) 0

/-- Modelled from the spec: a constructed confidentiality cipher.  Only
the AES-CBC-128 variant is ever constructed (the `None` algorithm returns
no cipher), and it is determined by its 16 key bytes. -/
inductive Cipher where
  | aes128cbc (key : List Nat)
  deriving DecidableEq

/-- The error returned by `algorithmCipher` for unrecognized algorithm
identifiers. -/
inductive CipherError where
  | unsupported (alg : Nat)
  deriving DecidableEq

/-- `algorithmCipher` (confidentiality.go): `None` yields no cipher,
AES-CBC-128 yields a cipher keyed with 16 bytes drawn from the session
key-material generator at key index 2, and every other identifier is an
unsupported-algorithm error.  `NewAES128CBC` is modelled from the spec as
constructing the cipher from the key (it cannot fail for a 16-byte key). -/
def algorithmCipher (a : Nat) (g : Nat → List Nat) : Except CipherError (Option Cipher) :=
  if a = ConfidentialityAlgorithmNone then Except.ok none
  else if a = ConfidentialityAlgorithmAESCBC128 then
    Except.ok (some (Cipher.aes128cbc (copyKey16 (g 2))))
  else Except.error (CipherError.unsupported a)

/-- A `Message` with every field zero / empty: Go's zero value, used as a
concrete decode receiver. -/
def zeroMessage : Message :=
  { Contents := [], Payload := [], Function := 0, Body := 0, Enterprise := 0,
    Command := 0, RemoteAddress := 0, RemoteLUN := 0, Checksum1 := 0,
    LocalAddress := 0, LocalLUN := 0, Sequence := 0, CompletionCode := 0,
    Checksum2 := 0 }

/-- The round-trip property for one message, decode receiver and payload:
serializing `m` with checksum computation over an already-serialized
payload `buf`, then decoding the produced bytes into `m0`, succeeds with
both checksums validating (`Outcome.ok`, no truncation — decoding rejects
any checksum mismatch, so success entails validation) and reproduces every
populated field of `m`; the checksum fields equal the ones the serializer
computed and stored back into the message. -/
def RoundTripHolds (m m0 : Message) (buf : List Nat) : Prop :=
  (m0.DecodeFromBytes (m.SerializeTo buf true).2).outcome = Outcome.ok ∧
  (m0.DecodeFromBytes (m.SerializeTo buf true).2).truncated = false ∧
  (m0.DecodeFromBytes (m.SerializeTo buf true).2).msg.RemoteAddress = m.RemoteAddress ∧
  (m0.DecodeFromBytes (m.SerializeTo buf true).2).msg.Function = m.Function ∧
  (m0.DecodeFromBytes (m.SerializeTo buf true).2).msg.RemoteLUN = m.RemoteLUN ∧
  (m0.DecodeFromBytes (m.SerializeTo buf true).2).msg.LocalAddress = m.LocalAddress ∧
  (m0.DecodeFromBytes (m.SerializeTo buf true).2).msg.Sequence = m.Sequence ∧
  (m0.DecodeFromBytes (m.SerializeTo buf true).2).msg.LocalLUN = m.LocalLUN ∧
  (m0.DecodeFromBytes (m.SerializeTo buf true).2).msg.Command = m.Command ∧
  (m0.DecodeFromBytes (m.SerializeTo buf true).2).msg.CompletionCode = m.CompletionCode ∧
  (m0.DecodeFromBytes (m.SerializeTo buf true).2).msg.Body = m.Body ∧
  (m0.DecodeFromBytes (m.SerializeTo buf true).2).msg.Enterprise = m.Enterprise ∧
  (m0.DecodeFromBytes (m.SerializeTo buf true).2).msg.Payload = buf ∧
  (m0.DecodeFromBytes (m.SerializeTo buf true).2).msg.Checksum1
    = (m.SerializeTo buf true).1.Checksum1 ∧
  (m0.DecodeFromBytes (m.SerializeTo buf true).2).msg.Checksum2
    = (m.SerializeTo buf true).1.Checksum2

/-! ## Helper lemmas -/

/-- The mod-256 folding sum agrees with the plain list sum mod 256. -/
theorem foldl_mod_add (l : List Nat) (a : Nat) (ha : a < 256) :
    l.foldl (fun c b => (c + b) % 256) a = (a + l.sum) % 256 := by
  induction l generalizing a with
  | nil => simpa using (Nat.mod_eq_of_lt ha).symm
  | cons b t ih =>
    simp only [List.foldl_cons, List.sum_cons]
    rw [ih ((a + b) % 256) (Nat.mod_lt _ (by omega))]
    omega

/-- Disjoint-bit `|||` is addition: `2^k * a ||| b = 2^k * a + b` for
`b < 2^k`. -/
theorem lor_mul_pow (k a b : Nat) (hb : b < 2 ^ k) : 2 ^ k * a ||| b = 2 ^ k * a + b :=
  (Nat.mul_add_lt_is_or hb a).symm

/-- Reading the final appended byte. -/
theorem getD_append_length (l : List Nat) (x d : Nat) : (l ++ [x]).getD l.length d = x := by
  induction l with
  | nil => rfl
  | cons h t ih => simp [ih]

/-- Wire byte 1 decodes back to the function and LUN it was packed from. -/
theorem decode_byte1 (f lun : Nat) (hf : f < 64) (hl : lun < 4) :
    (u8 (u8 f <<< 2) ||| u8 lun) >>> 2 = f ∧ (u8 (u8 f <<< 2) ||| u8 lun) &&& 3 = lun := by
  have hf' : u8 f = f := Nat.mod_eq_of_lt (by omega)
  have hl' : u8 lun = lun := Nat.mod_eq_of_lt (by omega)
  have hsh : f <<< 2 = 4 * f := by rw [Nat.shiftLeft_eq]; ring
  have hu : u8 (f <<< 2) = 4 * f := by
    rw [hsh]; exact Nat.mod_eq_of_lt (by omega)
  have hor : 4 * f ||| lun = 4 * f + lun := by
    have := lor_mul_pow 2 f lun (by omega)
    simpa using this
  have hb : u8 (u8 f <<< 2) ||| u8 lun = 4 * f + lun := by
    rw [hf', hu, hl', hor]
  rw [hb]
  constructor
  · rw [Nat.shiftRight_eq_div_pow]; omega
  · have := Nat.and_pow_two_sub_one_eq_mod (4 * f + lun) 2
    norm_num at this
    omega

/-- The three serialized little-endian bytes of a sub-`2^24` enterprise
number decode back to it. -/
theorem decode_enterprise (e : Nat) (he : e < 2 ^ 24) :
    u8 (e % 2 ^ 32) ||| u8 ((e % 2 ^ 32) >>> 8) <<< 8 ||| u8 ((e % 2 ^ 32) >>> 16) <<< 16
      = e := by
  have h32 : e % 2 ^ 32 = e := Nat.mod_eq_of_lt (by omega)
  rw [h32]
  have h8 : u8 (e >>> 8) = e / 256 % 256 := by
    rw [Nat.shiftRight_eq_div_pow]; rfl
  have h16 : u8 (e >>> 16) = e / 65536 % 256 := by
    rw [Nat.shiftRight_eq_div_pow]; rfl
  have h16' : e / 65536 % 256 = e / 65536 := Nat.mod_eq_of_lt (by omega)
  rw [u8, h8, h16, h16']
  have hor1 : e % 256 ||| (e / 256 % 256) <<< 8 = 2 ^ 8 * (e / 256 % 256) + e % 256 := by
    rw [Nat.shiftLeft_eq, Nat.lor_comm, Nat.mul_comm (e / 256 % 256) (2 ^ 8)]
    exact lor_mul_pow 8 (e / 256 % 256) (e % 256) (by omega)
  have hor2 : 2 ^ 8 * (e / 256 % 256) + e % 256 ||| (e / 65536) <<< 16
      = 2 ^ 16 * (e / 65536) + (2 ^ 8 * (e / 256 % 256) + e % 256) := by
    rw [Nat.shiftLeft_eq, Nat.lor_comm, Nat.mul_comm (e / 65536) (2 ^ 16)]
    exact lor_mul_pow 16 (e / 65536) _ (by omega)
  rw [hor1, hor2]
  omega

/-- Little-endian reassembly of three bytes by `|||` is plain positional
arithmetic. -/
theorem lor_three_bytes (b0 b1 b2 : Nat) (h0 : b0 < 256) (h1 : b1 < 256) :
    b0 ||| b1 <<< 8 ||| b2 <<< 16 = b0 + 256 * b1 + 65536 * b2 := by
  have hor1 : b0 ||| b1 <<< 8 = 2 ^ 8 * b1 + b0 := by
    rw [Nat.shiftLeft_eq, Nat.lor_comm, Nat.mul_comm b1 (2 ^ 8)]
    exact lor_mul_pow 8 b1 b0 (by omega)
  have hor2 : 2 ^ 8 * b1 + b0 ||| b2 <<< 16 = 2 ^ 16 * b2 + (2 ^ 8 * b1 + b0) := by
    rw [Nat.shiftLeft_eq, Nat.lor_comm, Nat.mul_comm b2 (2 ^ 16)]
    exact lor_mul_pow 16 b2 _ (by omega)
  rw [hor1, hor2]
  ring

/-- An in-range `getD` read of a list of bytes is a byte. -/
theorem getD_lt (l : List Nat) (i : Nat) (h : ∀ b ∈ l, b < 256) (hi : i < l.length) :
    l.getD i 0 < 256 := by
  rw [List.getD_eq_getElem?_getD, List.getElem?_eq_getElem hi]
  simpa using h _ (List.getElem_mem hi)

/-! ## Claim theorems -/

/-- C5: `checksum` computes the two's complement of the 8-bit sum of its
input, so the sum of all input bytes plus the checksum is zero mod 256, for
every byte sequence. -/
theorem c5_checksum_two_complement (data : List Nat) :
    checksum data = (256 - data.sum % 256) % 256 ∧
      (data.sum + checksum data) % 256 = 0 := by
  have h : checksum data = (256 - data.sum % 256) % 256 := by
    unfold checksum
    rw [foldl_mod_add data 0 (by omega), Nat.zero_add]
  exact ⟨h, by rw [h]; omega⟩

/-- C4: decoding fewer than 7 bytes always fails with the truncation
signal — `SetTruncated` is recorded, the error is the explicit
minimum-length error, the receiver is untouched, and in particular no
checksum error and no out-of-range fault can occur. -/
theorem c4_short_input_truncated (m : Message) (data : List Nat) (h : data.length < 7) :
    m.DecodeFromBytes data =
      { msg := m, truncated := true,
        outcome := Outcome.err (DecodeError.tooShort data.length) } := by
  unfold Message.DecodeFromBytes
  rw [if_pos h]

/-- Witness for C4 at the concrete 3-byte input `[0, 1, 2]`. -/
theorem c4_short_input_truncated_witness :
    [(0 : Nat), 1, 2].length < 7 ∧
      Message.DecodeFromBytes zeroMessage [0, 1, 2] =
        { msg := zeroMessage, truncated := true,
          outcome := Outcome.err (DecodeError.tooShort 3) } :=
  ⟨by decide, c4_short_input_truncated zeroMessage [0, 1, 2] (by decide)⟩

/-- C2 (failing input): the 7-byte input `[0, 4, 252, 0, 0, 0, 0]` has a
response network function (byte 1 is `0x04`, function code 1, odd) and
both checksums valid (`252 = checksum [0, 4]`, `0 = checksum [0, 0, 0]`),
so decoding reaches `decodeDataHeader` with `start = 7` and evaluates the
Go slice expression `data[7:6]`, whose bounds are inverted: a runtime
panic, not an explicit truncation or checksum error.  This contradicts the
claim that a ≥ 7-byte input decodes to success or an explicit error and
that decoding a response never faults. -/
theorem c2_seven_byte_response_slice_fault :
    (Message.DecodeFromBytes zeroMessage [0, 4, 252, 0, 0, 0, 0]).outcome
      = Outcome.fault 7 6 := by
  decide

/-- C3 (counterexample): decoding `[1, 0, 0, 0, 0, 0, 0]` into a zeroed
`Message` fails the checksum-1 test (got 0, want 255 = `checksum [1, 0]`)
— yet the receiver is *not* left unchanged: `RemoteAddress`, `Function`,
`RemoteLUN` and `Checksum1` were assigned before the test ran. -/
theorem c3_counterexample_receiver_mutated :
    (Message.DecodeFromBytes zeroMessage [1, 0, 0, 0, 0, 0, 0]).outcome
        = Outcome.err (DecodeError.badChecksum1 0 255) ∧
      (Message.DecodeFromBytes zeroMessage [1, 0, 0, 0, 0, 0, 0]).msg ≠ zeroMessage := by
  decide

/-- C3 (amended): when either checksum verification fails, decoding stops
immediately with an error naming that checksum and the expected and actual
values, and no payload is exposed — the receiver's `Contents` and
`Payload` are left unchanged (the scalar header fields parsed before the
failing test, however, have already been overwritten). -/
theorem c3_checksum_failure_stops_without_payload (m : Message) (data : List Nat)
    (h7 : 7 ≤ data.length) :
    (data.getD 2 0 ≠ checksum (data.take 2) →
      (m.DecodeFromBytes data).outcome
          = Outcome.err (DecodeError.badChecksum1 (data.getD 2 0)
              (checksum (data.take 2))) ∧
        (m.DecodeFromBytes data).msg.Contents = m.Contents ∧
        (m.DecodeFromBytes data).msg.Payload = m.Payload) ∧
    (data.getD 2 0 = checksum (data.take 2) →
      data.getD (data.length - 1) 0 ≠ checksum ((data.drop 3).take (data.length - 1 - 3)) →
      (m.DecodeFromBytes data).outcome
          = Outcome.err (DecodeError.badChecksum2 (data.getD (data.length - 1) 0)
              (checksum ((data.drop 3).take (data.length - 1 - 3)))) ∧
        (m.DecodeFromBytes data).msg.Contents = m.Contents ∧
        (m.DecodeFromBytes data).msg.Payload = m.Payload) := by
  unfold Message.DecodeFromBytes
  rw [if_neg (Nat.not_lt.mpr h7)]
  constructor
  · intro hbad
    rw [if_pos hbad]
    exact ⟨rfl, rfl, rfl⟩
  · intro hgood hbad
    rw [if_neg (fun hne => hne hgood)]
    rw [if_pos hbad]
    exact ⟨rfl, rfl, rfl⟩

/-- Witness for C3's amended theorem at `[1, 0, 0, 0, 0, 0, 0]` (checksum 1
fails) and `[0, 0, 0, 1, 0, 0, 0]` (checksum 1 passes, checksum 2 fails). -/
theorem c3_checksum_failure_stops_without_payload_witness :
    ((7 : Nat) ≤ 7 ∧
      (Message.DecodeFromBytes zeroMessage [1, 0, 0, 0, 0, 0, 0]).outcome
          = Outcome.err (DecodeError.badChecksum1 0 255) ∧
      (Message.DecodeFromBytes zeroMessage [1, 0, 0, 0, 0, 0, 0]).msg.Contents = [] ∧
      (Message.DecodeFromBytes zeroMessage [1, 0, 0, 0, 0, 0, 0]).msg.Payload = []) ∧
    ((Message.DecodeFromBytes zeroMessage [0, 0, 0, 1, 0, 0, 0]).outcome
          = Outcome.err (DecodeError.badChecksum2 0 255) ∧
      (Message.DecodeFromBytes zeroMessage [0, 0, 0, 1, 0, 0, 0]).msg.Contents = [] ∧
      (Message.DecodeFromBytes zeroMessage [0, 0, 0, 1, 0, 0, 0]).msg.Payload = []) := by
  constructor
  · refine ⟨by decide, ?_⟩
    have h := (c3_checksum_failure_stops_without_payload zeroMessage
      [1, 0, 0, 0, 0, 0, 0] (by decide)).1 (by decide)
    exact h
  · have h := (c3_checksum_failure_stops_without_payload zeroMessage
      [0, 0, 0, 1, 0, 0, 0] (by decide)).2 (by decide) (by decide)
    exact h

/-- C6: a message with a non-normal completion code always selects the
opaque payload sentinel as next layer, whatever its operation; with the
normal completion code the next layer is the operation's table lookup; and
an operation absent from the static table falls back to the opaque payload
sentinel. -/
theorem c6_next_layer_dispatch :
    (∀ m : Message, m.CompletionCode ≠ CompletionCodeNormal →
      m.NextLayerType = LayerType.Payload) ∧
    (∀ m : Message, m.CompletionCode = CompletionCodeNormal →
      m.NextLayerType = (Message.Operation m).NextLayerType) ∧
    (∀ o : Operation, (∀ p ∈ operationLayerTypes, p.1 ≠ o) →
      o.NextLayerType = LayerType.Payload) := by
  refine ⟨fun m h => ?_, fun m h => ?_, fun o h => ?_⟩
  · unfold Message.NextLayerType
    rw [if_pos h]
  · unfold Message.NextLayerType
    rw [if_neg (fun hne => hne h)]
  · unfold Operation.NextLayerType
    have hnone : operationLayerTypes.find? (fun p => decide (p.1 = o)) = none := by
      rw [List.find?_eq_none]
      intro p hp
      simpa using h p hp
    rw [hnone]

/-- Witness for C6: a Get Device ID response (an operation *in* the table)
with a non-normal completion code still maps to the payload sentinel; with
the normal code it maps to the table entry; an unknown operation falls
back to the payload sentinel. -/
theorem c6_next_layer_dispatch_witness :
    Message.NextLayerType
        { zeroMessage with Function := 0x07, Command := 0x01, CompletionCode := 0xc1 }
      = LayerType.Payload ∧
    Message.NextLayerType { zeroMessage with Function := 0x07, Command := 0x01 }
      = (Message.Operation
          { zeroMessage with Function := 0x07, Command := 0x01 }).NextLayerType ∧
    Operation.NextLayerType { Function := 0, Body := 0, Enterprise := 0, Command := 0xff }
      = LayerType.Payload :=
  ⟨c6_next_layer_dispatch.1 _ (by decide),
   c6_next_layer_dispatch.2.1 _ (by decide),
   c6_next_layer_dispatch.2.2 _ (by decide)⟩

/-- C7: during decoding, a Group function consumes exactly 1 extra header
byte (the body code), an OEM function consumes exactly 3 (the little-endian
24-bit enterprise number), and every other function consumes 0; when the
data region is too short the decoder signals truncation (flag set, explicit
error, 0 consumed) instead of computing a wrong payload offset. -/
theorem c7_special_netfns_consumption (m : Message) (data : List Nat)
    (hbytes : ∀ b ∈ data, b < 256) :
    ((m.Function = NetworkFunctionGroupReq ∨ m.Function = NetworkFunctionGroupRsp) →
      (1 ≤ data.length →
        m.decodeSpecialNetFns data =
          { msg := { m with Body := data.getD 0 0, Enterprise := 0 }, consumed := 1,
            truncated := false, err := none }) ∧
      (data.length < 1 →
        m.decodeSpecialNetFns data =
          { msg := { m with Body := 0, Enterprise := 0 }, consumed := 0,
            truncated := true, err := some DecodeError.shortBodyCode })) ∧
    ((m.Function = NetworkFunctionOEMReq ∨ m.Function = NetworkFunctionOEMRsp) →
      (3 ≤ data.length →
        m.decodeSpecialNetFns data =
          { msg := { m with
                       Body := 0,
                       Enterprise := data.getD 0 0 + 256 * data.getD 1 0
                         + 65536 * data.getD 2 0 },
            consumed := 3, truncated := false, err := none }) ∧
      (data.length < 3 →
        m.decodeSpecialNetFns data =
          { msg := { m with Body := 0, Enterprise := 0 }, consumed := 0,
            truncated := true, err := some DecodeError.shortOEM })) ∧
    (¬(m.Function = NetworkFunctionGroupReq ∨ m.Function = NetworkFunctionGroupRsp) →
     ¬(m.Function = NetworkFunctionOEMReq ∨ m.Function = NetworkFunctionOEMRsp) →
      m.decodeSpecialNetFns data =
        { msg := { m with Body := 0, Enterprise := 0 }, consumed := 0,
          truncated := false, err := none }) := by
  refine ⟨fun hg => ⟨fun hlen => ?_, fun hlen => ?_⟩,
          fun ho => ⟨fun hlen => ?_, fun hlen => ?_⟩,
          fun hg ho => ?_⟩
  · unfold Message.decodeSpecialNetFns
    rw [if_pos hg, if_neg (Nat.not_lt.mpr hlen)]
  · unfold Message.decodeSpecialNetFns
    rw [if_pos hg, if_pos hlen]
  · unfold Message.decodeSpecialNetFns
    have hng : ¬(m.Function = NetworkFunctionGroupReq
        ∨ m.Function = NetworkFunctionGroupRsp) := by
      rcases ho with h | h <;> rw [h] <;> decide
    rw [if_neg hng, if_pos ho, if_neg (Nat.not_lt.mpr hlen)]
    have he : data.getD 0 0 ||| data.getD 1 0 <<< 8 ||| data.getD 2 0 <<< 16
        = data.getD 0 0 + 256 * data.getD 1 0 + 65536 * data.getD 2 0 :=
      lor_three_bytes _ _ _ (getD_lt data 0 hbytes (by omega))
        (getD_lt data 1 hbytes (by omega))
    rw [he]
  · unfold Message.decodeSpecialNetFns
    have hng : ¬(m.Function = NetworkFunctionGroupReq
        ∨ m.Function = NetworkFunctionGroupRsp) := by
      rcases ho with h | h <;> rw [h] <;> decide
    rw [if_neg hng, if_pos ho, if_pos hlen]
  · unfold Message.decodeSpecialNetFns
    rw [if_neg hg, if_neg ho]

/-- Witness for C7 at a Group response with one data byte, an OEM request
with three data bytes, their truncated variants, and a plain App request. -/
theorem c7_special_netfns_consumption_witness :
    Message.decodeSpecialNetFns { zeroMessage with Function := 0x2d } [9, 1] =
      { msg := { zeroMessage with Function := 0x2d, Body := 9 }, consumed := 1,
        truncated := false, err := none } ∧
    Message.decodeSpecialNetFns { zeroMessage with Function := 0x2d } [] =
      { msg := { zeroMessage with Function := 0x2d }, consumed := 0,
        truncated := true, err := some DecodeError.shortBodyCode } ∧
    Message.decodeSpecialNetFns { zeroMessage with Function := 0x2e } [1, 2, 3] =
      { msg := { zeroMessage with Function := 0x2e, Enterprise := 197121 },
        consumed := 3, truncated := false, err := none } ∧
    Message.decodeSpecialNetFns { zeroMessage with Function := 0x2e } [1, 2] =
      { msg := { zeroMessage with Function := 0x2e }, consumed := 0,
        truncated := true, err := some DecodeError.shortOEM } ∧
    Message.decodeSpecialNetFns { zeroMessage with Function := 0x06 } [1, 2] =
      { msg := { zeroMessage with Function := 0x06 }, consumed := 0,
        truncated := false, err := none } :=
  ⟨((c7_special_netfns_consumption _ [9, 1] (by decide)).1 (by decide)).1 (by decide),
   ((c7_special_netfns_consumption _ [] (by decide)).1 (by decide)).2 (by decide),
   ((c7_special_netfns_consumption _ [1, 2, 3] (by decide)).2.1 (by decide)).1 (by decide),
   ((c7_special_netfns_consumption _ [1, 2] (by decide)).2.1 (by decide)).2 (by decide),
   (c7_special_netfns_consumption _ [1, 2] (by decide)).2.2 (by decide) (by decide)⟩

/-- C8: confidentiality-layer construction succeeds exactly for the `None`
and AES-CBC-128 identifiers — `None` constructs no cipher, AES-CBC-128 is
keyed with 16 bytes drawn from the key-material generator at key index 2 —
and every other identifier yields the unsupported-algorithm error. -/
theorem c8_algorithm_cipher_cases (a : Nat) (g : Nat → List Nat) :
    (a = ConfidentialityAlgorithmNone → algorithmCipher a g = Except.ok none) ∧
    (a = ConfidentialityAlgorithmAESCBC128 →
      algorithmCipher a g = Except.ok (some (Cipher.aes128cbc (copyKey16 (g 2)))) ∧
        (copyKey16 (g 2)).length = 16) ∧
    (a ≠ ConfidentialityAlgorithmNone → a ≠ ConfidentialityAlgorithmAESCBC128 →
      algorithmCipher a g = Except.error (CipherError.unsupported a)) := by
  refine ⟨fun h => ?_, fun h => ⟨?_, ?_⟩, fun h1 h2 => ?_⟩
  · unfold algorithmCipher
    rw [if_pos h]
  · unfold algorithmCipher
    rw [if_neg (by rw [h]; decide), if_pos h]
  · unfold copyKey16
    simp only [List.length_append, List.length_take, List.length_replicate]
    omega
  · unfold algorithmCipher
    rw [if_neg h1, if_neg h2]

/-- Witness for C8 at the three identifier classes (0, 1, and 5). -/
theorem c8_algorithm_cipher_cases_witness :
    algorithmCipher 0 (fun _ => []) = Except.ok none ∧
    algorithmCipher 1 (fun _ => List.replicate 20 7)
      = Except.ok (some (Cipher.aes128cbc (copyKey16 (List.replicate 20 7)))) ∧
    (copyKey16 (List.replicate 20 7)).length = 16 ∧
    algorithmCipher 5 (fun _ => []) = Except.error (CipherError.unsupported 5) :=
  ⟨(c8_algorithm_cipher_cases 0 (fun _ => [])).1 (by decide),
   ((c8_algorithm_cipher_cases 1 (fun _ => List.replicate 20 7)).2.1 (by decide)).1,
   ((c8_algorithm_cipher_cases 1 (fun _ => List.replicate 20 7)).2.1 (by decide)).2,
   (c8_algorithm_cipher_cases 5 (fun _ => [])).2.2 (by decide) (by decide)⟩

/-- C9: with checksum computation enabled, serialization overwrites the
message's `Checksum1`/`Checksum2` with the values computed from the
just-written bytes (and changes nothing else in the message); with it
disabled, the caller-supplied checksum bytes are written to the wire
verbatim — whether or not they satisfy the checksum property — and no
message field is modified. -/
theorem c9_serialize_checksum_frame (m : Message) (buf : List Nat)
    (h1 : m.Checksum1 < 256) (h2 : m.Checksum2 < 256) :
    ((m.SerializeTo buf true).1
        = { m with Checksum1 := (m.SerializeTo buf true).1.Checksum1,
                   Checksum2 := (m.SerializeTo buf true).1.Checksum2 } ∧
      (m.SerializeTo buf true).1.Checksum1 = checksum ((m.SerializeTo buf true).2.take 2) ∧
      (m.SerializeTo buf true).1.Checksum2
        = checksum (((m.SerializeTo buf true).2.take
            ((m.SerializeTo buf true).2.length - 1)).drop 3) ∧
      (m.SerializeTo buf true).2.getD 2 0 = (m.SerializeTo buf true).1.Checksum1 ∧
      (m.SerializeTo buf true).2.getD ((m.SerializeTo buf true).2.length - 1) 0
        = (m.SerializeTo buf true).1.Checksum2) ∧
    ((m.SerializeTo buf false).1 = m ∧
      (m.SerializeTo buf false).2.getD 2 0 = m.Checksum1 ∧
      (m.SerializeTo buf false).2.getD ((m.SerializeTo buf false).2.length - 1) 0
        = m.Checksum2) := by
  constructor
  · refine ⟨rfl, ?_, ?_, ?_, ?_⟩
    · show m.serializeChecksum1 true
        = checksum (((m.serializeHeader (m.serializeChecksum1 true) ++ buf)
            ++ [m.serializeChecksum2 buf true]).take 2)
      simp [Message.serializeHeader, Message.serializeChecksum1]
    · show m.serializeChecksum2 buf true
        = checksum ((((m.serializeHeader (m.serializeChecksum1 true) ++ buf)
            ++ [m.serializeChecksum2 buf true]).take
              (((m.serializeHeader (m.serializeChecksum1 true) ++ buf)
                ++ [m.serializeChecksum2 buf true]).length - 1)).drop 3)
      have hlen : ((m.serializeHeader (m.serializeChecksum1 true) ++ buf)
          ++ [m.serializeChecksum2 buf true]).length - 1
          = (m.serializeHeader (m.serializeChecksum1 true) ++ buf).length := by
        simp
      rw [hlen, List.take_left]
      rfl
    · show ((m.serializeHeader (m.serializeChecksum1 true) ++ buf)
          ++ [m.serializeChecksum2 buf true]).getD 2 0 = m.serializeChecksum1 true
      simp [Message.serializeHeader]
    · show ((m.serializeHeader (m.serializeChecksum1 true) ++ buf)
          ++ [m.serializeChecksum2 buf true]).getD
            (((m.serializeHeader (m.serializeChecksum1 true) ++ buf)
              ++ [m.serializeChecksum2 buf true]).length - 1) 0
        = m.serializeChecksum2 buf true
      have hlen : ((m.serializeHeader (m.serializeChecksum1 true) ++ buf)
          ++ [m.serializeChecksum2 buf true]).length - 1
          = (m.serializeHeader (m.serializeChecksum1 true) ++ buf).length := by
        simp
      rw [hlen]
      exact getD_append_length _ _ _
  · refine ⟨rfl, ?_, ?_⟩
    · show ((m.serializeHeader (m.serializeChecksum1 false) ++ buf)
          ++ [m.serializeChecksum2 buf false]).getD 2 0 = m.Checksum1
      simp [Message.serializeHeader, Message.serializeChecksum1, u8]
      omega
    · show ((m.serializeHeader (m.serializeChecksum1 false) ++ buf)
          ++ [m.serializeChecksum2 buf false]).getD
            (((m.serializeHeader (m.serializeChecksum1 false) ++ buf)
              ++ [m.serializeChecksum2 buf false]).length - 1) 0
        = m.Checksum2
      have hlen : ((m.serializeHeader (m.serializeChecksum1 false) ++ buf)
          ++ [m.serializeChecksum2 buf false]).length - 1
          = (m.serializeHeader (m.serializeChecksum1 false) ++ buf).length := by
        simp
      rw [hlen, getD_append_length]
      show u8 m.Checksum2 = m.Checksum2
      exact Nat.mod_eq_of_lt h2

/-- Witness for C9 at a concrete request message with deliberately invalid
caller-supplied checksums. -/
theorem c9_serialize_checksum_frame_witness :
    ((99 : Nat) < 256 ∧ (77 : Nat) < 256) ∧
    (({ zeroMessage with Checksum1 := 99, Checksum2 := 77 }.SerializeTo [5] false).1
        = { zeroMessage with Checksum1 := 99, Checksum2 := 77 } ∧
      ({ zeroMessage with Checksum1 := 99, Checksum2 := 77 }.SerializeTo [5] false).2.getD 2 0
        = 99 ∧
      ({ zeroMessage with Checksum1 := 99, Checksum2 := 77 }.SerializeTo [5] false).2.getD
        (({ zeroMessage with Checksum1 := 99, Checksum2 := 77 }.SerializeTo
          [5] false).2.length - 1) 0 = 77) :=
  ⟨⟨by decide, by decide⟩,
   (c9_serialize_checksum_frame { zeroMessage with Checksum1 := 99, Checksum2 := 77 } [5]
     (by decide) (by decide)).2⟩

/-- `decodeSpecialNetFns` never changes the receiver's `Function`. -/
theorem specialNetFns_Function (m : Message) (data : List Nat) :
    (m.decodeSpecialNetFns data).msg.Function = m.Function := by
  simp only [Message.decodeSpecialNetFns]
  repeat' split
  all_goals rfl

/-- `decodeSpecialNetFns` never changes the receiver's `CompletionCode`. -/
theorem specialNetFns_CompletionCode (m : Message) (data : List Nat) :
    (m.decodeSpecialNetFns data).msg.CompletionCode = m.CompletionCode := by
  simp only [Message.decodeSpecialNetFns]
  repeat' split
  all_goals rfl

/-- For a non-Group function, `decodeSpecialNetFns` leaves `Body` zeroed. -/
theorem specialNetFns_Body (m : Message) (data : List Nat)
    (h : ¬(m.Function = NetworkFunctionGroupReq ∨ m.Function = NetworkFunctionGroupRsp)) :
    (m.decodeSpecialNetFns data).msg.Body = 0 := by
  simp only [Message.decodeSpecialNetFns]
  split_ifs <;> simp_all

/-- For a non-OEM function, `decodeSpecialNetFns` leaves `Enterprise`
zeroed. -/
theorem specialNetFns_Enterprise (m : Message) (data : List Nat)
    (h : ¬(m.Function = NetworkFunctionOEMReq ∨ m.Function = NetworkFunctionOEMRsp)) :
    (m.decodeSpecialNetFns data).msg.Enterprise = 0 := by
  simp only [Message.decodeSpecialNetFns]
  split_ifs <;> simp_all

/-- C10: every successful decode assigns all conditional fields rather
than leaving them as found — in the resulting message, `Body` is zero
unless the function is Group, `Enterprise` is zero unless the function is
OEM, and `CompletionCode` is zero (the normal sentinel) whenever the
function is a request — so no stale values from a previous decode into the
same receiver survive. -/
theorem c10_decode_resets_conditional_fields (m : Message) (data : List Nat)
    (r : DecodeResult) (hr : m.DecodeFromBytes data = r)
    (hok : r.outcome = Outcome.ok) :
    (¬(r.msg.Function = NetworkFunctionGroupReq
        ∨ r.msg.Function = NetworkFunctionGroupRsp) → r.msg.Body = 0) ∧
    (¬(r.msg.Function = NetworkFunctionOEMReq
        ∨ r.msg.Function = NetworkFunctionOEMRsp) → r.msg.Enterprise = 0) ∧
    (IsRequest r.msg.Function = true → r.msg.CompletionCode = 0) := by
  simp only [Message.DecodeFromBytes] at hr
  split at hr
  · rw [← hr] at hok; simp at hok
  · split at hr
    · rw [← hr] at hok; simp at hok
    · split at hr
      · rw [← hr] at hok; simp at hok
      · split at hr
        · -- request branch
          rename_i hreq
          simp only [Message.decodeRequest, Message.decodeDataHeader] at hr
          split at hr
          · split at hr
            · rw [← hr] at hok; simp at hok
            · rw [← hr]
              refine ⟨fun hg => ?_, fun ho => ?_, fun hq => ?_⟩
              · exact specialNetFns_Body _ _
                  (by simpa [specialNetFns_Function] using hg)
              · exact specialNetFns_Enterprise _ _
                  (by simpa [specialNetFns_Function] using ho)
              · simp [specialNetFns_CompletionCode]
          · rw [← hr] at hok; simp at hok
        · -- response branch
          rename_i hreq
          simp only [Message.decodeResponse, Message.decodeDataHeader] at hr
          split at hr
          · split at hr
            · rw [← hr] at hok; simp at hok
            · rw [← hr]
              refine ⟨fun hg => ?_, fun ho => ?_, fun hq => ?_⟩
              · exact specialNetFns_Body _ _
                  (by simpa [specialNetFns_Function] using hg)
              · exact specialNetFns_Enterprise _ _
                  (by simpa [specialNetFns_Function] using ho)
              · exact absurd (by simpa [specialNetFns_Function] using hq) hreq
          · rw [← hr] at hok; simp at hok

/-- Taking at most the left part of an append stays in the left part. -/
theorem take_append_of_le (l1 l2 : List Nat) (k : Nat) (h : k ≤ l1.length) :
    (l1 ++ l2).take k = l1.take k := by
  induction l1 generalizing k with
  | nil =>
    have : k = 0 := by simpa using h
    simp [this]
  | cons a t ih =>
    cases k with
    | zero => simp
    | succ k2 => simpa using ih k2 (by simpa using h)

/-- Dropping within the left part of an append keeps the right part. -/
theorem drop_append_of_le (l1 l2 : List Nat) (k : Nat) (h : k ≤ l1.length) :
    (l1 ++ l2).drop k = l1.drop k ++ l2 := by
  induction l1 generalizing k with
  | nil =>
    have : k = 0 := by simpa using h
    simp [this]
  | cons a t ih =>
    cases k with
    | zero => simp
    | succ k2 => simpa using ih k2 (by simpa using h)

/-- `decodeSpecialNetFns` on a Group function with a non-empty region:
one byte consumed as the body code. -/
theorem specialNetFns_group_eval (mx : Message) (d : List Nat) (f : Nat)
    (hfx : mx.Function = f)
    (hg : f = NetworkFunctionGroupReq ∨ f = NetworkFunctionGroupRsp)
    (hd : 1 ≤ d.length) :
    mx.decodeSpecialNetFns d
      = { msg := { mx with Body := d.getD 0 0, Enterprise := 0 }, consumed := 1,
          truncated := false, err := none } := by
  simp only [Message.decodeSpecialNetFns]
  rw [hfx, if_pos hg, if_neg (by omega)]

/-- `decodeSpecialNetFns` on an OEM function with a ≥ 3-byte region: three
bytes consumed as the little-endian enterprise number. -/
theorem specialNetFns_oem_eval (mx : Message) (d : List Nat) (f : Nat)
    (hfx : mx.Function = f)
    (hg : ¬(f = NetworkFunctionGroupReq ∨ f = NetworkFunctionGroupRsp))
    (ho : f = NetworkFunctionOEMReq ∨ f = NetworkFunctionOEMRsp)
    (hd : 3 ≤ d.length) :
    mx.decodeSpecialNetFns d
      = { msg := { mx with
                     Body := 0,
                     Enterprise := d.getD 0 0 ||| d.getD 1 0 <<< 8 ||| d.getD 2 0 <<< 16 },
          consumed := 3, truncated := false, err := none } := by
  simp only [Message.decodeSpecialNetFns]
  rw [hfx, if_neg hg, if_pos ho, if_neg (by omega)]

/-- `decodeSpecialNetFns` on a plain function: nothing consumed, the
conditional fields zeroed. -/
theorem specialNetFns_default_eval (mx : Message) (d : List Nat) (f : Nat)
    (hfx : mx.Function = f)
    (hg : ¬(f = NetworkFunctionGroupReq ∨ f = NetworkFunctionGroupRsp))
    (ho : ¬(f = NetworkFunctionOEMReq ∨ f = NetworkFunctionOEMRsp)) :
    mx.decodeSpecialNetFns d
      = { msg := { mx with Body := 0, Enterprise := 0 }, consumed := 0,
          truncated := false, err := none } := by
  simp only [Message.decodeSpecialNetFns]
  rw [hfx, if_neg hg, if_neg ho]

/-- Evaluation of `Message.DecodeFromBytes` on a request-shaped wire: six
header bytes whose checksum byte is correct, a data region `eb`, and a
correct trailing checksum, where `decodeSpecialNetFns` succeeds on the
region.  The decode succeeds and produces exactly the parsed fields. -/
theorem decode_request_eval (m0 : Message) (b0 b1 c1x b3 b4 b5 : Nat)
    (eb : List Nat) (sr : SpecialResult)
    (hc1 : c1x = checksum [b0, b1])
    (hreq : IsRequest (b1 >>> 2) = true)
    (hsr : Message.decodeSpecialNetFns
        { Contents := m0.Contents, Payload := m0.Payload, Function := b1 >>> 2,
          Body := m0.Body, Enterprise := m0.Enterprise, Command := b5,
          RemoteAddress := b0, RemoteLUN := b1 &&& 3, Checksum1 := c1x,
          LocalAddress := b3, LocalLUN := b4 &&& 3, Sequence := b4 >>> 2,
          CompletionCode := 0, Checksum2 := checksum (b3 :: b4 :: b5 :: eb) } eb = sr)
    (herr : sr.err = none) (hk : sr.consumed ≤ eb.length) :
    m0.DecodeFromBytes
        (b0 :: b1 :: c1x :: b3 :: b4 :: b5 :: (eb ++ [checksum (b3 :: b4 :: b5 :: eb)]))
      = { msg := { sr.msg with
            Contents := (b0 :: b1 :: c1x :: b3 :: b4 :: b5 :: eb).take (6 + sr.consumed),
            Payload := eb.drop sr.consumed },
          truncated := sr.truncated, outcome := Outcome.ok } := by
  have hlen : (b0 :: b1 :: c1x :: b3 :: b4 :: b5
      :: (eb ++ [checksum (b3 :: b4 :: b5 :: eb)])).length = 7 + eb.length := by
    simp
    omega
  have hflat : b0 :: b1 :: c1x :: b3 :: b4 :: b5 :: (eb ++ [checksum (b3 :: b4 :: b5 :: eb)])
      = (b0 :: b1 :: c1x :: b3 :: b4 :: b5 :: eb) ++ [checksum (b3 :: b4 :: b5 :: eb)] := by
    simp
  have hlast : (b0 :: b1 :: c1x :: b3 :: b4 :: b5
        :: (eb ++ [checksum (b3 :: b4 :: b5 :: eb)])).getD (7 + eb.length - 1) 0
      = checksum (b3 :: b4 :: b5 :: eb) := by
    have h2 : 7 + eb.length - 1 = (b0 :: b1 :: c1x :: b3 :: b4 :: b5 :: eb).length := by
      simp
      omega
    rw [hflat, h2, getD_append_length]
  have htake2 : List.take 2 (b0 :: b1 :: c1x :: b3 :: b4 :: b5
      :: (eb ++ [checksum (b3 :: b4 :: b5 :: eb)])) = [b0, b1] := rfl
  have hdrop3 : List.drop 3 (b0 :: b1 :: c1x :: b3 :: b4 :: b5
      :: (eb ++ [checksum (b3 :: b4 :: b5 :: eb)]))
      = b3 :: b4 :: b5 :: (eb ++ [checksum (b3 :: b4 :: b5 :: eb)]) := rfl
  have hspan : List.take (7 + eb.length - 1 - 3) (List.drop 3 (b0 :: b1 :: c1x :: b3 :: b4
      :: b5 :: (eb ++ [checksum (b3 :: b4 :: b5 :: eb)]))) = b3 :: b4 :: b5 :: eb := by
    rw [hdrop3]
    have h1 : b3 :: b4 :: b5 :: (eb ++ [checksum (b3 :: b4 :: b5 :: eb)])
        = (b3 :: b4 :: b5 :: eb) ++ [checksum (b3 :: b4 :: b5 :: eb)] := by simp
    rw [h1]
    exact List.take_left' (by simp; omega)
  simp only [Message.DecodeFromBytes, hlen]
  rw [if_neg (by omega)]
  simp only [List.getD_cons_zero, List.getD_cons_succ, htake2, hspan, hlast]
  rw [if_neg (by rw [hc1]; exact fun h => h rfl)]
  rw [if_neg (fun h => h rfl)]
  rw [if_pos hreq]
  simp only [Message.decodeRequest, Message.decodeDataHeader, hlen]
  rw [if_pos (by omega)]
  have hregion : List.take (7 + eb.length - 1 - 6) (List.drop 6 (b0 :: b1 :: c1x :: b3 :: b4
      :: b5 :: (eb ++ [checksum (b3 :: b4 :: b5 :: eb)]))) = eb := by
    have h1 : List.drop 6 (b0 :: b1 :: c1x :: b3 :: b4 :: b5
        :: (eb ++ [checksum (b3 :: b4 :: b5 :: eb)]))
        = eb ++ [checksum (b3 :: b4 :: b5 :: eb)] := rfl
    rw [h1]
    exact List.take_left' (by omega)
  rw [hregion, hsr]
  split
  next e heq => rw [heq] at herr; exact absurd herr (by simp)
  next heq =>
    have hcont : List.take (6 + sr.consumed) (b0 :: b1 :: c1x :: b3 :: b4 :: b5
        :: (eb ++ [checksum (b3 :: b4 :: b5 :: eb)]))
        = List.take (6 + sr.consumed) (b0 :: b1 :: c1x :: b3 :: b4 :: b5 :: eb) := by
      rw [hflat]
      exact take_append_of_le _ _ _ (by simp; omega)
    have hpay : List.take (7 + eb.length - 1 - (6 + sr.consumed))
        (List.drop (6 + sr.consumed) (b0 :: b1 :: c1x :: b3 :: b4 :: b5
          :: (eb ++ [checksum (b3 :: b4 :: b5 :: eb)])))
        = eb.drop sr.consumed := by
      have h1 : List.drop (6 + sr.consumed) (b0 :: b1 :: c1x :: b3 :: b4 :: b5
          :: (eb ++ [checksum (b3 :: b4 :: b5 :: eb)]))
          = eb.drop sr.consumed ++ [checksum (b3 :: b4 :: b5 :: eb)] := by
        rw [hflat, drop_append_of_le _ _ _ (by simp; omega)]
        congr 1
        have h2 : (b0 :: b1 :: c1x :: b3 :: b4 :: b5 :: eb).drop (6 + sr.consumed)
            = ((b0 :: b1 :: c1x :: b3 :: b4 :: b5 :: eb).drop 6).drop sr.consumed := by
          rw [List.drop_drop]
        rw [h2]
        rfl
      rw [h1]
      exact List.take_left' (by simp; omega)
    rw [hcont, hpay]

/-- Evaluation of `Message.DecodeFromBytes` on a response-shaped wire: as
in `decode_request_eval` but with the completion-code byte at offset 6 and
the data region starting at offset 7. -/
theorem decode_response_eval (m0 : Message) (b0 b1 c1x b3 b4 b5 cc : Nat)
    (eb : List Nat) (sr : SpecialResult)
    (hc1 : c1x = checksum [b0, b1])
    (hreq : IsRequest (b1 >>> 2) = false)
    (hsr : Message.decodeSpecialNetFns
        { Contents := m0.Contents, Payload := m0.Payload, Function := b1 >>> 2,
          Body := m0.Body, Enterprise := m0.Enterprise, Command := b5,
          RemoteAddress := b0, RemoteLUN := b1 &&& 3, Checksum1 := c1x,
          LocalAddress := b3, LocalLUN := b4 &&& 3, Sequence := b4 >>> 2,
          CompletionCode := cc, Checksum2 := checksum (b3 :: b4 :: b5 :: cc :: eb) } eb = sr)
    (herr : sr.err = none) (hk : sr.consumed ≤ eb.length) :
    m0.DecodeFromBytes (b0 :: b1 :: c1x :: b3 :: b4 :: b5 :: cc
        :: (eb ++ [checksum (b3 :: b4 :: b5 :: cc :: eb)]))
      = { msg := { sr.msg with
            Contents := (b0 :: b1 :: c1x :: b3 :: b4 :: b5 :: cc :: eb).take
              (7 + sr.consumed),
            Payload := eb.drop sr.consumed },
          truncated := sr.truncated, outcome := Outcome.ok } := by
  have hlen : (b0 :: b1 :: c1x :: b3 :: b4 :: b5 :: cc
      :: (eb ++ [checksum (b3 :: b4 :: b5 :: cc :: eb)])).length = 8 + eb.length := by
    simp
    omega
  have hflat : b0 :: b1 :: c1x :: b3 :: b4 :: b5 :: cc
        :: (eb ++ [checksum (b3 :: b4 :: b5 :: cc :: eb)])
      = (b0 :: b1 :: c1x :: b3 :: b4 :: b5 :: cc :: eb)
        ++ [checksum (b3 :: b4 :: b5 :: cc :: eb)] := by
    simp
  have hlast : (b0 :: b1 :: c1x :: b3 :: b4 :: b5 :: cc
        :: (eb ++ [checksum (b3 :: b4 :: b5 :: cc :: eb)])).getD (8 + eb.length - 1) 0
      = checksum (b3 :: b4 :: b5 :: cc :: eb) := by
    have h2 : 8 + eb.length - 1 = (b0 :: b1 :: c1x :: b3 :: b4 :: b5 :: cc :: eb).length := by
      simp
      omega
    rw [hflat, h2, getD_append_length]
  have htake2 : List.take 2 (b0 :: b1 :: c1x :: b3 :: b4 :: b5 :: cc
      :: (eb ++ [checksum (b3 :: b4 :: b5 :: cc :: eb)])) = [b0, b1] := rfl
  have hspan : List.take (8 + eb.length - 1 - 3) (List.drop 3 (b0 :: b1 :: c1x :: b3 :: b4
      :: b5 :: cc :: (eb ++ [checksum (b3 :: b4 :: b5 :: cc :: eb)])))
      = b3 :: b4 :: b5 :: cc :: eb := by
    have hdrop3 : List.drop 3 (b0 :: b1 :: c1x :: b3 :: b4 :: b5 :: cc
        :: (eb ++ [checksum (b3 :: b4 :: b5 :: cc :: eb)]))
        = b3 :: b4 :: b5 :: cc :: (eb ++ [checksum (b3 :: b4 :: b5 :: cc :: eb)]) := rfl
    rw [hdrop3]
    have h1 : b3 :: b4 :: b5 :: cc :: (eb ++ [checksum (b3 :: b4 :: b5 :: cc :: eb)])
        = (b3 :: b4 :: b5 :: cc :: eb) ++ [checksum (b3 :: b4 :: b5 :: cc :: eb)] := by
      simp
    rw [h1]
    exact List.take_left' (by simp; omega)
  simp only [Message.DecodeFromBytes, hlen]
  rw [if_neg (by omega)]
  simp only [List.getD_cons_zero, List.getD_cons_succ, htake2, hspan, hlast]
  rw [if_neg (by rw [hc1]; exact fun h => h rfl)]
  rw [if_neg (fun h => h rfl)]
  rw [if_neg (by rw [hreq]; exact fun h => nomatch h)]
  simp only [Message.decodeResponse, Message.decodeDataHeader, hlen,
    List.getD_cons_zero, List.getD_cons_succ]
  rw [if_pos (by omega)]
  have hregion : List.take (8 + eb.length - 1 - 7) (List.drop 7 (b0 :: b1 :: c1x :: b3 :: b4
      :: b5 :: cc :: (eb ++ [checksum (b3 :: b4 :: b5 :: cc :: eb)]))) = eb := by
    have h1 : List.drop 7 (b0 :: b1 :: c1x :: b3 :: b4 :: b5 :: cc
        :: (eb ++ [checksum (b3 :: b4 :: b5 :: cc :: eb)]))
        = eb ++ [checksum (b3 :: b4 :: b5 :: cc :: eb)] := rfl
    rw [h1]
    exact List.take_left' (by omega)
  rw [hregion, hsr]
  split
  next e heq => rw [heq] at herr; exact absurd herr (by simp)
  next heq =>
    have hcont : List.take (7 + sr.consumed) (b0 :: b1 :: c1x :: b3 :: b4 :: b5 :: cc
        :: (eb ++ [checksum (b3 :: b4 :: b5 :: cc :: eb)]))
        = List.take (7 + sr.consumed) (b0 :: b1 :: c1x :: b3 :: b4 :: b5 :: cc :: eb) := by
      rw [hflat]
      exact take_append_of_le _ _ _ (by simp; omega)
    have hpay : List.take (8 + eb.length - 1 - (7 + sr.consumed))
        (List.drop (7 + sr.consumed) (b0 :: b1 :: c1x :: b3 :: b4 :: b5 :: cc
          :: (eb ++ [checksum (b3 :: b4 :: b5 :: cc :: eb)])))
        = eb.drop sr.consumed := by
      have h1 : List.drop (7 + sr.consumed) (b0 :: b1 :: c1x :: b3 :: b4 :: b5 :: cc
          :: (eb ++ [checksum (b3 :: b4 :: b5 :: cc :: eb)]))
          = eb.drop sr.consumed ++ [checksum (b3 :: b4 :: b5 :: cc :: eb)] := by
        rw [hflat, drop_append_of_le _ _ _ (by simp; omega)]
        have h2 : (b0 :: b1 :: c1x :: b3 :: b4 :: b5 :: cc :: eb).drop (7 + sr.consumed)
            = ((b0 :: b1 :: c1x :: b3 :: b4 :: b5 :: cc :: eb).drop 7).drop sr.consumed := by
          rw [List.drop_drop]
        rw [h2]
        rfl
      rw [h1]
      exact List.take_left' (by simp; omega)
    rw [hcont, hpay]

/-- Round trip for a request with a plain (non-Group, non-OEM) network
function. -/
theorem roundtrip_plain_request (m m0 : Message) (buf : List Nat)
    (hra : m.RemoteAddress < 256) (hrl : m.RemoteLUN < 4) (hf : m.Function < 64)
    (hla : m.LocalAddress < 256) (hll : m.LocalLUN < 4) (hsq : m.Sequence < 64)
    (hcm : m.Command < 256)
    (hpar : IsRequest m.Function = true)
    (hcc0 : m.CompletionCode = 0) (hb0 : m.Body = 0) (he0 : m.Enterprise = 0)
    (hng : ¬(m.Function = NetworkFunctionGroupReq ∨ m.Function = NetworkFunctionGroupRsp))
    (hno : ¬(m.Function = NetworkFunctionOEMReq ∨ m.Function = NetworkFunctionOEMRsp)) :
    RoundTripHolds m m0 buf := by
  obtain ⟨hfun, hlun⟩ := decode_byte1 m.Function m.RemoteLUN hf hrl
  obtain ⟨hseq, hllu⟩ := decode_byte1 m.Sequence m.LocalLUN hsq hll
  have hhdr : m.serializeHeader (m.serializeChecksum1 true)
      = [u8 m.RemoteAddress, u8 (u8 m.Function <<< 2) ||| u8 m.RemoteLUN,
         m.serializeChecksum1 true, u8 m.LocalAddress,
         u8 (u8 m.Sequence <<< 2) ||| u8 m.LocalLUN, u8 m.Command] := by
    simp only [Message.serializeHeader]
    rw [if_pos hpar, if_neg hng, if_neg hno]
    rfl
  have hc2 : m.serializeChecksum2 buf true
      = checksum (u8 m.LocalAddress :: (u8 (u8 m.Sequence <<< 2) ||| u8 m.LocalLUN)
          :: u8 m.Command :: buf) := by
    show checksum ((m.serializeHeader (m.serializeChecksum1 true) ++ buf).drop 3) = _
    rw [hhdr]
    rfl
  have hbytes : (m.SerializeTo buf true).2
      = u8 m.RemoteAddress :: (u8 (u8 m.Function <<< 2) ||| u8 m.RemoteLUN)
        :: m.serializeChecksum1 true :: u8 m.LocalAddress
        :: (u8 (u8 m.Sequence <<< 2) ||| u8 m.LocalLUN) :: u8 m.Command
        :: (buf ++ [checksum (u8 m.LocalAddress
             :: (u8 (u8 m.Sequence <<< 2) ||| u8 m.LocalLUN) :: u8 m.Command :: buf)]) := by
    show (m.serializeHeader (m.serializeChecksum1 true) ++ buf)
        ++ [m.serializeChecksum2 buf true] = _
    rw [hhdr, hc2]
    simp
  have hdec := decode_request_eval m0 (u8 m.RemoteAddress)
      (u8 (u8 m.Function <<< 2) ||| u8 m.RemoteLUN) (m.serializeChecksum1 true)
      (u8 m.LocalAddress) (u8 (u8 m.Sequence <<< 2) ||| u8 m.LocalLUN) (u8 m.Command)
      buf _ rfl (by rw [hfun]; exact hpar)
      (specialNetFns_default_eval _ buf m.Function hfun hng hno) rfl (Nat.zero_le _)
  unfold RoundTripHolds
  rw [hbytes, hdec]
  exact ⟨rfl, rfl, Nat.mod_eq_of_lt hra, hfun, hlun, Nat.mod_eq_of_lt hla, hseq, hllu,
    Nat.mod_eq_of_lt hcm, hcc0.symm, hb0.symm, he0.symm, rfl, rfl, hc2.symm⟩

/-- Round trip for a response with a plain (non-Group, non-OEM) network
function. -/
theorem roundtrip_plain_response (m m0 : Message) (buf : List Nat)
    (hra : m.RemoteAddress < 256) (hrl : m.RemoteLUN < 4) (hf : m.Function < 64)
    (hla : m.LocalAddress < 256) (hll : m.LocalLUN < 4) (hsq : m.Sequence < 64)
    (hcm : m.Command < 256) (hcc : m.CompletionCode < 256)
    (hpar : IsRequest m.Function = false)
    (hb0 : m.Body = 0) (he0 : m.Enterprise = 0)
    (hng : ¬(m.Function = NetworkFunctionGroupReq ∨ m.Function = NetworkFunctionGroupRsp))
    (hno : ¬(m.Function = NetworkFunctionOEMReq ∨ m.Function = NetworkFunctionOEMRsp)) :
    RoundTripHolds m m0 buf := by
  obtain ⟨hfun, hlun⟩ := decode_byte1 m.Function m.RemoteLUN hf hrl
  obtain ⟨hseq, hllu⟩ := decode_byte1 m.Sequence m.LocalLUN hsq hll
  have hhdr : m.serializeHeader (m.serializeChecksum1 true)
      = [u8 m.RemoteAddress, u8 (u8 m.Function <<< 2) ||| u8 m.RemoteLUN,
         m.serializeChecksum1 true, u8 m.LocalAddress,
         u8 (u8 m.Sequence <<< 2) ||| u8 m.LocalLUN, u8 m.Command,
         u8 m.CompletionCode] := by
    simp only [Message.serializeHeader]
    rw [if_neg (by simp [hpar]), if_neg hng, if_neg hno]
    rfl
  have hc2 : m.serializeChecksum2 buf true
      = checksum (u8 m.LocalAddress :: (u8 (u8 m.Sequence <<< 2) ||| u8 m.LocalLUN)
          :: u8 m.Command :: u8 m.CompletionCode :: buf) := by
    show checksum ((m.serializeHeader (m.serializeChecksum1 true) ++ buf).drop 3) = _
    rw [hhdr]
    rfl
  have hbytes : (m.SerializeTo buf true).2
      = u8 m.RemoteAddress :: (u8 (u8 m.Function <<< 2) ||| u8 m.RemoteLUN)
        :: m.serializeChecksum1 true :: u8 m.LocalAddress
        :: (u8 (u8 m.Sequence <<< 2) ||| u8 m.LocalLUN) :: u8 m.Command
        :: u8 m.CompletionCode
        :: (buf ++ [checksum (u8 m.LocalAddress
             :: (u8 (u8 m.Sequence <<< 2) ||| u8 m.LocalLUN) :: u8 m.Command
             :: u8 m.CompletionCode :: buf)]) := by
    show (m.serializeHeader (m.serializeChecksum1 true) ++ buf)
        ++ [m.serializeChecksum2 buf true] = _
    rw [hhdr, hc2]
    simp
  have hdec := decode_response_eval m0 (u8 m.RemoteAddress)
      (u8 (u8 m.Function <<< 2) ||| u8 m.RemoteLUN) (m.serializeChecksum1 true)
      (u8 m.LocalAddress) (u8 (u8 m.Sequence <<< 2) ||| u8 m.LocalLUN) (u8 m.Command)
      (u8 m.CompletionCode) buf _ rfl (by rw [hfun]; exact hpar)
      (specialNetFns_default_eval _ buf m.Function hfun hng hno) rfl (Nat.zero_le _)
  unfold RoundTripHolds
  rw [hbytes, hdec]
  exact ⟨rfl, rfl, Nat.mod_eq_of_lt hra, hfun, hlun, Nat.mod_eq_of_lt hla, hseq, hllu,
    Nat.mod_eq_of_lt hcm, Nat.mod_eq_of_lt hcc, hb0.symm, he0.symm, rfl, rfl, hc2.symm⟩

/-- Round trip for a Group request. -/
theorem roundtrip_group_request (m m0 : Message) (buf : List Nat)
    (hra : m.RemoteAddress < 256) (hrl : m.RemoteLUN < 4) (hf : m.Function < 64)
    (hla : m.LocalAddress < 256) (hll : m.LocalLUN < 4) (hsq : m.Sequence < 64)
    (hcm : m.Command < 256) (hbd : m.Body < 256)
    (hfx : m.Function = NetworkFunctionGroupReq)
    (hcc0 : m.CompletionCode = 0) (he0 : m.Enterprise = 0) :
    RoundTripHolds m m0 buf := by
  obtain ⟨hfun, hlun⟩ := decode_byte1 m.Function m.RemoteLUN hf hrl
  obtain ⟨hseq, hllu⟩ := decode_byte1 m.Sequence m.LocalLUN hsq hll
  have hpar : IsRequest m.Function = true := by rw [hfx]; decide
  have hgp : m.Function = NetworkFunctionGroupReq ∨ m.Function = NetworkFunctionGroupRsp :=
    Or.inl hfx
  have hhdr : m.serializeHeader (m.serializeChecksum1 true)
      = [u8 m.RemoteAddress, u8 (u8 m.Function <<< 2) ||| u8 m.RemoteLUN,
         m.serializeChecksum1 true, u8 m.LocalAddress,
         u8 (u8 m.Sequence <<< 2) ||| u8 m.LocalLUN, u8 m.Command, u8 m.Body] := by
    simp only [Message.serializeHeader]
    rw [if_pos hpar, if_pos hgp]
    rfl
  have hc2 : m.serializeChecksum2 buf true
      = checksum (u8 m.LocalAddress :: (u8 (u8 m.Sequence <<< 2) ||| u8 m.LocalLUN)
          :: u8 m.Command :: u8 m.Body :: buf) := by
    show checksum ((m.serializeHeader (m.serializeChecksum1 true) ++ buf).drop 3) = _
    rw [hhdr]
    rfl
  have hbytes : (m.SerializeTo buf true).2
      = u8 m.RemoteAddress :: (u8 (u8 m.Function <<< 2) ||| u8 m.RemoteLUN)
        :: m.serializeChecksum1 true :: u8 m.LocalAddress
        :: (u8 (u8 m.Sequence <<< 2) ||| u8 m.LocalLUN) :: u8 m.Command
        :: ((u8 m.Body :: buf) ++ [checksum (u8 m.LocalAddress
             :: (u8 (u8 m.Sequence <<< 2) ||| u8 m.LocalLUN) :: u8 m.Command
             :: u8 m.Body :: buf)]) := by
    show (m.serializeHeader (m.serializeChecksum1 true) ++ buf)
        ++ [m.serializeChecksum2 buf true] = _
    rw [hhdr, hc2]
    simp
  have hdec := decode_request_eval m0 (u8 m.RemoteAddress)
      (u8 (u8 m.Function <<< 2) ||| u8 m.RemoteLUN) (m.serializeChecksum1 true)
      (u8 m.LocalAddress) (u8 (u8 m.Sequence <<< 2) ||| u8 m.LocalLUN) (u8 m.Command)
      (u8 m.Body :: buf) _ rfl (by rw [hfun]; exact hpar)
      (specialNetFns_group_eval _ (u8 m.Body :: buf) m.Function hfun hgp (by simp))
      rfl (by simp)
  unfold RoundTripHolds
  rw [hbytes, hdec]
  exact ⟨rfl, rfl, Nat.mod_eq_of_lt hra, hfun, hlun, Nat.mod_eq_of_lt hla, hseq, hllu,
    Nat.mod_eq_of_lt hcm, hcc0.symm, Nat.mod_eq_of_lt hbd, he0.symm, rfl, rfl, hc2.symm⟩

/-- Round trip for a Group response. -/
theorem roundtrip_group_response (m m0 : Message) (buf : List Nat)
    (hra : m.RemoteAddress < 256) (hrl : m.RemoteLUN < 4) (hf : m.Function < 64)
    (hla : m.LocalAddress < 256) (hll : m.LocalLUN < 4) (hsq : m.Sequence < 64)
    (hcm : m.Command < 256) (hcc : m.CompletionCode < 256) (hbd : m.Body < 256)
    (hfx : m.Function = NetworkFunctionGroupRsp)
    (he0 : m.Enterprise = 0) :
    RoundTripHolds m m0 buf := by
  obtain ⟨hfun, hlun⟩ := decode_byte1 m.Function m.RemoteLUN hf hrl
  obtain ⟨hseq, hllu⟩ := decode_byte1 m.Sequence m.LocalLUN hsq hll
  have hpar : IsRequest m.Function = false := by rw [hfx]; decide
  have hgp : m.Function = NetworkFunctionGroupReq ∨ m.Function = NetworkFunctionGroupRsp :=
    Or.inr hfx
  have hhdr : m.serializeHeader (m.serializeChecksum1 true)
      = [u8 m.RemoteAddress, u8 (u8 m.Function <<< 2) ||| u8 m.RemoteLUN,
         m.serializeChecksum1 true, u8 m.LocalAddress,
         u8 (u8 m.Sequence <<< 2) ||| u8 m.LocalLUN, u8 m.Command,
         u8 m.CompletionCode, u8 m.Body] := by
    simp only [Message.serializeHeader]
    rw [if_neg (by simp [hpar]), if_pos hgp]
    rfl
  have hc2 : m.serializeChecksum2 buf true
      = checksum (u8 m.LocalAddress :: (u8 (u8 m.Sequence <<< 2) ||| u8 m.LocalLUN)
          :: u8 m.Command :: u8 m.CompletionCode :: u8 m.Body :: buf) := by
    show checksum ((m.serializeHeader (m.serializeChecksum1 true) ++ buf).drop 3) = _
    rw [hhdr]
    rfl
  have hbytes : (m.SerializeTo buf true).2
      = u8 m.RemoteAddress :: (u8 (u8 m.Function <<< 2) ||| u8 m.RemoteLUN)
        :: m.serializeChecksum1 true :: u8 m.LocalAddress
        :: (u8 (u8 m.Sequence <<< 2) ||| u8 m.LocalLUN) :: u8 m.Command
        :: u8 m.CompletionCode
        :: ((u8 m.Body :: buf) ++ [checksum (u8 m.LocalAddress
             :: (u8 (u8 m.Sequence <<< 2) ||| u8 m.LocalLUN) :: u8 m.Command
             :: u8 m.CompletionCode :: u8 m.Body :: buf)]) := by
    show (m.serializeHeader (m.serializeChecksum1 true) ++ buf)
        ++ [m.serializeChecksum2 buf true] = _
    rw [hhdr, hc2]
    simp
  have hdec := decode_response_eval m0 (u8 m.RemoteAddress)
      (u8 (u8 m.Function <<< 2) ||| u8 m.RemoteLUN) (m.serializeChecksum1 true)
      (u8 m.LocalAddress) (u8 (u8 m.Sequence <<< 2) ||| u8 m.LocalLUN) (u8 m.Command)
      (u8 m.CompletionCode) (u8 m.Body :: buf) _ rfl (by rw [hfun]; exact hpar)
      (specialNetFns_group_eval _ (u8 m.Body :: buf) m.Function hfun hgp (by simp))
      rfl (by simp)
  unfold RoundTripHolds
  rw [hbytes, hdec]
  exact ⟨rfl, rfl, Nat.mod_eq_of_lt hra, hfun, hlun, Nat.mod_eq_of_lt hla, hseq, hllu,
    Nat.mod_eq_of_lt hcm, Nat.mod_eq_of_lt hcc, Nat.mod_eq_of_lt hbd, he0.symm, rfl, rfl,
    hc2.symm⟩

/-- Round trip for an OEM request. -/
theorem roundtrip_oem_request (m m0 : Message) (buf : List Nat)
    (hra : m.RemoteAddress < 256) (hrl : m.RemoteLUN < 4) (hf : m.Function < 64)
    (hla : m.LocalAddress < 256) (hll : m.LocalLUN < 4) (hsq : m.Sequence < 64)
    (hcm : m.Command < 256) (hen : m.Enterprise < 2 ^ 24)
    (hfx : m.Function = NetworkFunctionOEMReq)
    (hcc0 : m.CompletionCode = 0) (hb0 : m.Body = 0) :
    RoundTripHolds m m0 buf := by
  obtain ⟨hfun, hlun⟩ := decode_byte1 m.Function m.RemoteLUN hf hrl
  obtain ⟨hseq, hllu⟩ := decode_byte1 m.Sequence m.LocalLUN hsq hll
  have hpar : IsRequest m.Function = true := by rw [hfx]; decide
  have hng : ¬(m.Function = NetworkFunctionGroupReq
      ∨ m.Function = NetworkFunctionGroupRsp) := by rw [hfx]; decide
  have hop : m.Function = NetworkFunctionOEMReq ∨ m.Function = NetworkFunctionOEMRsp :=
    Or.inl hfx
  have hhdr : m.serializeHeader (m.serializeChecksum1 true)
      = [u8 m.RemoteAddress, u8 (u8 m.Function <<< 2) ||| u8 m.RemoteLUN,
         m.serializeChecksum1 true, u8 m.LocalAddress,
         u8 (u8 m.Sequence <<< 2) ||| u8 m.LocalLUN, u8 m.Command,
         u8 (m.Enterprise % 2 ^ 32), u8 ((m.Enterprise % 2 ^ 32) >>> 8),
         u8 ((m.Enterprise % 2 ^ 32) >>> 16)] := by
    simp only [Message.serializeHeader]
    rw [if_pos hpar, if_neg hng, if_pos hop]
    rfl
  have hc2 : m.serializeChecksum2 buf true
      = checksum (u8 m.LocalAddress :: (u8 (u8 m.Sequence <<< 2) ||| u8 m.LocalLUN)
          :: u8 m.Command :: u8 (m.Enterprise % 2 ^ 32)
          :: u8 ((m.Enterprise % 2 ^ 32) >>> 8)
          :: u8 ((m.Enterprise % 2 ^ 32) >>> 16) :: buf) := by
    show checksum ((m.serializeHeader (m.serializeChecksum1 true) ++ buf).drop 3) = _
    rw [hhdr]
    rfl
  have hbytes : (m.SerializeTo buf true).2
      = u8 m.RemoteAddress :: (u8 (u8 m.Function <<< 2) ||| u8 m.RemoteLUN)
        :: m.serializeChecksum1 true :: u8 m.LocalAddress
        :: (u8 (u8 m.Sequence <<< 2) ||| u8 m.LocalLUN) :: u8 m.Command
        :: ((u8 (m.Enterprise % 2 ^ 32) :: u8 ((m.Enterprise % 2 ^ 32) >>> 8)
             :: u8 ((m.Enterprise % 2 ^ 32) >>> 16) :: buf)
            ++ [checksum (u8 m.LocalAddress
                 :: (u8 (u8 m.Sequence <<< 2) ||| u8 m.LocalLUN) :: u8 m.Command
                 :: u8 (m.Enterprise % 2 ^ 32) :: u8 ((m.Enterprise % 2 ^ 32) >>> 8)
                 :: u8 ((m.Enterprise % 2 ^ 32) >>> 16) :: buf)]) := by
    show (m.serializeHeader (m.serializeChecksum1 true) ++ buf)
        ++ [m.serializeChecksum2 buf true] = _
    rw [hhdr, hc2]
    simp
  have hdec := decode_request_eval m0 (u8 m.RemoteAddress)
      (u8 (u8 m.Function <<< 2) ||| u8 m.RemoteLUN) (m.serializeChecksum1 true)
      (u8 m.LocalAddress) (u8 (u8 m.Sequence <<< 2) ||| u8 m.LocalLUN) (u8 m.Command)
      (u8 (m.Enterprise % 2 ^ 32) :: u8 ((m.Enterprise % 2 ^ 32) >>> 8)
        :: u8 ((m.Enterprise % 2 ^ 32) >>> 16) :: buf) _ rfl
      (by rw [hfun]; exact hpar)
      (specialNetFns_oem_eval _ _ m.Function hfun hng hop (by simp))
      rfl (by simp)
  unfold RoundTripHolds
  rw [hbytes, hdec]
  exact ⟨rfl, rfl, Nat.mod_eq_of_lt hra, hfun, hlun, Nat.mod_eq_of_lt hla, hseq, hllu,
    Nat.mod_eq_of_lt hcm, hcc0.symm, hb0.symm, decode_enterprise m.Enterprise hen,
    rfl, rfl, hc2.symm⟩

/-- Round trip for an OEM response. -/
theorem roundtrip_oem_response (m m0 : Message) (buf : List Nat)
    (hra : m.RemoteAddress < 256) (hrl : m.RemoteLUN < 4) (hf : m.Function < 64)
    (hla : m.LocalAddress < 256) (hll : m.LocalLUN < 4) (hsq : m.Sequence < 64)
    (hcm : m.Command < 256) (hcc : m.CompletionCode < 256) (hen : m.Enterprise < 2 ^ 24)
    (hfx : m.Function = NetworkFunctionOEMRsp)
    (hb0 : m.Body = 0) :
    RoundTripHolds m m0 buf := by
  obtain ⟨hfun, hlun⟩ := decode_byte1 m.Function m.RemoteLUN hf hrl
  obtain ⟨hseq, hllu⟩ := decode_byte1 m.Sequence m.LocalLUN hsq hll
  have hpar : IsRequest m.Function = false := by rw [hfx]; decide
  have hng : ¬(m.Function = NetworkFunctionGroupReq
      ∨ m.Function = NetworkFunctionGroupRsp) := by rw [hfx]; decide
  have hop : m.Function = NetworkFunctionOEMReq ∨ m.Function = NetworkFunctionOEMRsp :=
    Or.inr hfx
  have hhdr : m.serializeHeader (m.serializeChecksum1 true)
      = [u8 m.RemoteAddress, u8 (u8 m.Function <<< 2) ||| u8 m.RemoteLUN,
         m.serializeChecksum1 true, u8 m.LocalAddress,
         u8 (u8 m.Sequence <<< 2) ||| u8 m.LocalLUN, u8 m.Command,
         u8 m.CompletionCode, u8 (m.Enterprise % 2 ^ 32),
         u8 ((m.Enterprise % 2 ^ 32) >>> 8), u8 ((m.Enterprise % 2 ^ 32) >>> 16)] := by
    simp only [Message.serializeHeader]
    rw [if_neg (by simp [hpar]), if_neg hng, if_pos hop]
    rfl
  have hc2 : m.serializeChecksum2 buf true
      = checksum (u8 m.LocalAddress :: (u8 (u8 m.Sequence <<< 2) ||| u8 m.LocalLUN)
          :: u8 m.Command :: u8 m.CompletionCode :: u8 (m.Enterprise % 2 ^ 32)
          :: u8 ((m.Enterprise % 2 ^ 32) >>> 8)
          :: u8 ((m.Enterprise % 2 ^ 32) >>> 16) :: buf) := by
    show checksum ((m.serializeHeader (m.serializeChecksum1 true) ++ buf).drop 3) = _
    rw [hhdr]
    rfl
  have hbytes : (m.SerializeTo buf true).2
      = u8 m.RemoteAddress :: (u8 (u8 m.Function <<< 2) ||| u8 m.RemoteLUN)
        :: m.serializeChecksum1 true :: u8 m.LocalAddress
        :: (u8 (u8 m.Sequence <<< 2) ||| u8 m.LocalLUN) :: u8 m.Command
        :: u8 m.CompletionCode
        :: ((u8 (m.Enterprise % 2 ^ 32) :: u8 ((m.Enterprise % 2 ^ 32) >>> 8)
             :: u8 ((m.Enterprise % 2 ^ 32) >>> 16) :: buf)
            ++ [checksum (u8 m.LocalAddress
                 :: (u8 (u8 m.Sequence <<< 2) ||| u8 m.LocalLUN) :: u8 m.Command
                 :: u8 m.CompletionCode :: u8 (m.Enterprise % 2 ^ 32)
                 :: u8 ((m.Enterprise % 2 ^ 32) >>> 8)
                 :: u8 ((m.Enterprise % 2 ^ 32) >>> 16) :: buf)]) := by
    show (m.serializeHeader (m.serializeChecksum1 true) ++ buf)
        ++ [m.serializeChecksum2 buf true] = _
    rw [hhdr, hc2]
    simp
  have hdec := decode_response_eval m0 (u8 m.RemoteAddress)
      (u8 (u8 m.Function <<< 2) ||| u8 m.RemoteLUN) (m.serializeChecksum1 true)
      (u8 m.LocalAddress) (u8 (u8 m.Sequence <<< 2) ||| u8 m.LocalLUN) (u8 m.Command)
      (u8 m.CompletionCode)
      (u8 (m.Enterprise % 2 ^ 32) :: u8 ((m.Enterprise % 2 ^ 32) >>> 8)
        :: u8 ((m.Enterprise % 2 ^ 32) >>> 16) :: buf) _ rfl
      (by rw [hfun]; exact hpar)
      (specialNetFns_oem_eval _ _ m.Function hfun hng hop (by simp))
      rfl (by simp)
  unfold RoundTripHolds
  rw [hbytes, hdec]
  exact ⟨rfl, rfl, Nat.mod_eq_of_lt hra, hfun, hlun, Nat.mod_eq_of_lt hla, hseq, hllu,
    Nat.mod_eq_of_lt hcm, Nat.mod_eq_of_lt hcc, hb0.symm,
    decode_enterprise m.Enterprise hen, rfl, rfl, hc2.symm⟩

/-- C1: for every message with in-range fields that is consistent
(completion code zero for requests, body code zero unless Group,
enterprise number zero unless OEM — the fields the wire format does not
carry for that function class), over every request/response direction,
every normal, Group or OEM network function and every (empty or
non-empty) payload, serializing with checksum computation and decoding
the produced bytes back (into any receiver) succeeds, both checksums
validate, and every populated field of the original is reproduced. -/
theorem c1_encode_decode_roundtrip (m m0 : Message) (buf : List Nat)
    (hra : m.RemoteAddress < 256) (hrl : m.RemoteLUN < 4) (hf : m.Function < 64)
    (hla : m.LocalAddress < 256) (hll : m.LocalLUN < 4) (hsq : m.Sequence < 64)
    (hcm : m.Command < 256) (hcc : m.CompletionCode < 256) (hbd : m.Body < 256)
    (hen : m.Enterprise < 2 ^ 24)
    (hreq0 : IsRequest m.Function = true → m.CompletionCode = 0)
    (hgb : ¬(m.Function = NetworkFunctionGroupReq ∨ m.Function = NetworkFunctionGroupRsp) →
      m.Body = 0)
    (hoe : ¬(m.Function = NetworkFunctionOEMReq ∨ m.Function = NetworkFunctionOEMRsp) →
      m.Enterprise = 0) :
    RoundTripHolds m m0 buf := by
  by_cases h44 : m.Function = NetworkFunctionGroupReq
  · exact roundtrip_group_request m m0 buf hra hrl hf hla hll hsq hcm hbd h44
      (hreq0 (by rw [h44]; decide)) (hoe (by rw [h44]; decide))
  by_cases h45 : m.Function = NetworkFunctionGroupRsp
  · exact roundtrip_group_response m m0 buf hra hrl hf hla hll hsq hcm hcc hbd h45
      (hoe (by rw [h45]; decide))
  by_cases h46 : m.Function = NetworkFunctionOEMReq
  · exact roundtrip_oem_request m m0 buf hra hrl hf hla hll hsq hcm hen h46
      (hreq0 (by rw [h46]; decide)) (hgb (by rw [h46]; decide))
  by_cases h47 : m.Function = NetworkFunctionOEMRsp
  · exact roundtrip_oem_response m m0 buf hra hrl hf hla hll hsq hcm hcc hen h47
      (hgb (by rw [h47]; decide))
  have hng : ¬(m.Function = NetworkFunctionGroupReq
      ∨ m.Function = NetworkFunctionGroupRsp) := fun h => h.elim h44 h45
  have hno : ¬(m.Function = NetworkFunctionOEMReq
      ∨ m.Function = NetworkFunctionOEMRsp) := fun h => h.elim h46 h47
  by_cases hpar : IsRequest m.Function = true
  · exact roundtrip_plain_request m m0 buf hra hrl hf hla hll hsq hcm hpar
      (hreq0 hpar) (hgb hng) (hoe hno) hng hno
  · exact roundtrip_plain_response m m0 buf hra hrl hf hla hll hsq hcm hcc
      (by simpa using hpar) (hgb hng) (hoe hno) hng hno

/-- Witness for C1 at a concrete Group response with a non-empty payload
and a non-normal completion code, decoded into a zeroed receiver. -/
theorem c1_encode_decode_roundtrip_witness :
    RoundTripHolds
      { zeroMessage with Function := 0x2d, RemoteAddress := 0x20, RemoteLUN := 1,
                         LocalAddress := 0x81, LocalLUN := 2, Sequence := 5,
                         Command := 0x3c, CompletionCode := 0xc1, Body := 0xae }
      zeroMessage [1, 2] :=
  c1_encode_decode_roundtrip _ zeroMessage [1, 2] (by decide) (by decide) (by decide)
    (by decide) (by decide) (by decide) (by decide) (by decide) (by decide) (by decide)
    (by decide) (by decide) (by decide)

/-- Witness for C10 at a concrete successful decode of a plain App request
(`[0x20, 0x18, 0xc8, 0x81, 0x14, 0x38, 0x33]`). -/
theorem c10_decode_resets_conditional_fields_witness :
    (Message.DecodeFromBytes zeroMessage [32, 24, 200, 129, 20, 56, 51]).outcome
        = Outcome.ok ∧
    (Message.DecodeFromBytes zeroMessage [32, 24, 200, 129, 20, 56, 51]).msg.Body = 0 ∧
    (Message.DecodeFromBytes zeroMessage [32, 24, 200, 129, 20, 56, 51]).msg.Enterprise
        = 0 ∧
    (Message.DecodeFromBytes zeroMessage [32, 24, 200, 129, 20, 56, 51]).msg.CompletionCode
        = 0 :=
  have h := c10_decode_resets_conditional_fields zeroMessage [32, 24, 200, 129, 20, 56, 51]
    (Message.DecodeFromBytes zeroMessage [32, 24, 200, 129, 20, 56, 51]) rfl (by decide)
  ⟨by decide, h.1 (by decide), h.2.1 (by decide), h.2.2 (by decide)⟩
